import Mathlib

/-!
Shallow embedding of the `ignominie` zero-copy validating decoder
(src/heap.rs and src/lib.rs) and proofs about it.

Addresses and machine words are modelled as `Nat` with explicit `usize`
arithmetic: `checked_add` / `checked_mul` return `none` exactly when the
mathematical result does not fit in a 64-bit word, mirroring Rust's
`usize::checked_add` / `usize::checked_mul` on a 64-bit target.
-/

namespace Ignominie

/-- Number of values of `usize` on a 64-bit target: a checked operation
overflows exactly when its mathematical result is `≥ USIZE`. -/
def USIZE : Nat := 2 ^ 64

/-- Model of `usize::checked_add`. -/
def checked_add (a b : Nat) : Option Nat :=
  if a + b < USIZE then some (a + b) else none

/-- Model of `usize::checked_mul`. -/
def checked_mul (a b : Nat) : Option Nat :=
  if a * b < USIZE then some (a * b) else none

/-- Model of `struct Heap` from src/heap.rs: the three pointers, taken as
numeric addresses (`end` is a Lean keyword, hence `end_`). -/
structure Heap where
  start : Nat
  remaining : Nat
  end_ : Nat
deriving DecidableEq

/-- Model of `Heap::new(input)`: `start = remaining = input.as_mut_ptr()`,
`end = start + input.len()`. -/
def Heap.new (start len : Nat) : Heap :=
  { start := start, remaining := start, end_ := start + len }

/-- Well-formedness of a heap, as established by `Heap::new` for a real
allocation: the three addresses are ordered and fit in the address space. -/
def Heap.WF (h : Heap) : Prop :=
  h.start ≤ h.remaining ∧ h.remaining ≤ h.end_ ∧ h.end_ < USIZE

instance (h : Heap) : Decidable h.WF := by
  unfold Heap.WF; infer_instance

/-- Model of `Heap::reserve::<T>(offset, len)` from src/heap.rs.
`size` and `align` stand for `mem::size_of::<T>()` and
`mem::align_of::<T>()`.  The function is state-passing: every early
`return Err` leaves the heap exactly as the Rust method leaves `self`
(untouched); on success `self.remaining` is set to the region's end and
the region's start address is returned. -/
def Heap.reserve (h : Heap) (size align offset len : Nat) :
    Except Unit Nat × Heap :=
  match checked_add h.start offset with
  | none => (.error (), h)
  | some ptr =>
    if ptr < h.remaining then (.error (), h)
    else if ptr % align ≠ 0 then (.error (), h)
    else
      match checked_mul len size with
      | none => (.error (), h)
      | some byte_len =>
        match checked_add ptr byte_len with
        | none => (.error (), h)
        | some remaining =>
          if remaining > h.end_ then (.error (), h)
          else (.ok ptr, { h with remaining := remaining })

/-! ## Leaf validators (src/lib.rs)

Each `Exhume` impl for a leaf type only inspects the in-place bit pattern;
we model it as a function from that bit pattern (already read from the
buffer) to `Except Unit Unit`, mirroring `Result<(), Error>`. -/

/-- Model of `Exhume for bool` (src/lib.rs): the byte must be
`true as u8` (1) or `false as u8` (0). -/
def exhume_bool (byte : Nat) : Except Unit Unit :=
  if byte = 1 ∨ byte = 0 then .ok () else .error ()

/-- Model of `Exhume for f32` (src/lib.rs).  By Rust operator precedence
the condition `bits & 0x1FF << 22 == 0x1FF << 22 && bits & 0x3FFFFF != 0`
parses as `(bits & (0x1FF << 22)) == (0x1FF << 22) && (bits & 0x3FFFFF) != 0`. -/
def exhume_f32 (bits : Nat) : Except Unit Unit :=
  if bits &&& (0x1FF <<< 22) = 0x1FF <<< 22 ∧ bits &&& 0x3FFFFF ≠ 0 then
    .error ()
  else
    .ok ()

/-- Model of `Exhume for f64` (src/lib.rs), condition
`(bits & (0xFFF << 51)) == (0xFFF << 51) && (bits & 0xFFFFFFFFFFFFF) != 0`. -/
def exhume_f64 (bits : Nat) : Except Unit Unit :=
  if bits &&& (0xFFF <<< 51) = 0xFFF <<< 51 ∧ bits &&& 0xFFFFFFFFFFFFF ≠ 0 then
    .error ()
  else
    .ok ()

/-- Model of `Exhume for char` (src/lib.rs): `char::from_u32` succeeds
iff the value is a Unicode scalar value (not a surrogate, at most
`0x10FFFF`). -/
def exhume_char (bits : Nat) : Except Unit Unit :=
  if (bits < 0xD800 ∨ 0xDFFF < bits) ∧ bits ≤ 0x10FFFF then .ok () else .error ()

/-- Model of `noop_impl` (src/lib.rs): `()`, `RangeFull` and all plain
integer types accept any bit pattern. -/
def exhume_noop (_bits : Nat) : Except Unit Unit := .ok ()

/-- IEEE-754 binary32 signaling NaN, written from the spec's words
(§4.3): exponent bits (30..23) all ones, mantissa (22..0) nonzero, quiet
bit (22) clear.  This is the SPEC-side predicate, to be compared with
`exhume_f32` which is translated from the code. -/
def isSignalingNaN32 (bits : Nat) : Prop :=
  bits &&& (0xFF <<< 23) = 0xFF <<< 23 ∧
  bits &&& 0x7FFFFF ≠ 0 ∧
  bits &&& (1 <<< 22) = 0

instance (bits : Nat) : Decidable (isSignalingNaN32 bits) := by
  unfold isSignalingNaN32; infer_instance

/-- IEEE-754 binary32 quiet NaN, from the spec's words: exponent all
ones, quiet bit set. -/
def isQuietNaN32 (bits : Nat) : Prop :=
  bits &&& (0xFF <<< 23) = 0xFF <<< 23 ∧ bits &&& (1 <<< 22) ≠ 0

instance (bits : Nat) : Decidable (isQuietNaN32 bits) := by
  unfold isQuietNaN32; infer_instance

/-! ## Closed enumerations (`c_enum_impl`, src/lib.rs)

The macro accepts a byte iff it equals one of the variants cast to the
`u8` representation.  The discriminants come from the Rust standard
library: `core::cmp::Ordering` is `#[repr(i8)]` with `Less = -1`,
`Equal = 0`, `Greater = 1`; `FpCategory` and `Shutdown` use default
discriminants `0, 1, 2, ...` in declaration order. -/

/-- Rust's `as u8` cast applied to an enum discriminant (an `i8`-sized
signed value): reduction modulo 256. -/
def u8_cast (i : Int) : Nat := (i % 256).toNat

/-- The declared discriminants of `core::cmp::Ordering`, each cast to
`u8` as the generated `const Less: u8 = Ordering::Less as u8;` does. -/
def orderingDiscs : List Nat := [u8_cast (-1), u8_cast 0, u8_cast 1]

/-- The declared discriminants of `core::num::FpCategory` cast to `u8`. -/
def fpCategoryDiscs : List Nat :=
  [u8_cast 0, u8_cast 1, u8_cast 2, u8_cast 3, u8_cast 4]

/-- The declared discriminants of `std::net::Shutdown` cast to `u8`. -/
def shutdownDiscs : List Nat := [u8_cast 0, u8_cast 1, u8_cast 2]

/-- Model of the `match` generated by `c_enum_impl` for `Ordering`:
the byte must be `Less as u8 = 255`, `Equal as u8 = 0` or
`Greater as u8 = 1`. -/
def exhume_Ordering (byte : Nat) : Except Unit Unit :=
  if byte = 255 then .ok ()
  else if byte = 0 then .ok ()
  else if byte = 1 then .ok ()
  else .error ()

/-- Model of the `match` generated by `c_enum_impl` for `FpCategory`. -/
def exhume_FpCategory (byte : Nat) : Except Unit Unit :=
  if byte = 0 then .ok ()
  else if byte = 1 then .ok ()
  else if byte = 2 then .ok ()
  else if byte = 3 then .ok ()
  else if byte = 4 then .ok ()
  else .error ()

/-- Model of the `match` generated by `c_enum_impl` for `Shutdown`. -/
def exhume_Shutdown (byte : Nat) : Except Unit Unit :=
  if byte = 0 then .ok ()
  else if byte = 1 then .ok ()
  else if byte = 2 then .ok ()
  else .error ()

/-! ## Indirect validators (src/heap.rs)

A reference value `&T` is stored in place as a `usize` holding an offset;
a slice value `&[T]` as a (pointer, length) pair whose pointer part holds
an offset.  `elem` stands for the element type's `T::exhume`, restricted
to its effect on the heap (an element validator may itself reserve). -/

/-- Model of `Exhume for &'input T` (src/heap.rs): null-check the stored
value, reserve one element at that offset, recursively exhume it, rebind
the in-place value to the reserved address (the returned `Nat`). -/
def exhumeRef (size align : Nat) (elem : Nat → Heap → Except Unit Heap)
    (value : Nat) (h : Heap) : Except Unit (Nat × Heap) :=
  if value = 0 then .error ()
  else
    match h.reserve size align value 1 with
    | (.ok ptr, h') =>
      match elem ptr h' with
      | .ok h'' => .ok (ptr, h'')
      | .error e => .error e
    | (.error e, _) => .error e

/-- The element loop of `Exhume for &'input [T]` (src/heap.rs):
`for i in 0..len { T::exhume(ptr.offset(i as isize), heap)?; }`. -/
def exhumeElems (elem : Nat → Heap → Except Unit Heap) (size : Nat) :
    Nat → Nat → Heap → Except Unit Heap
  | _, 0, h => .ok h
  | ptr, n + 1, h =>
    match elem ptr h with
    | .ok h' => exhumeElems elem size (ptr + size) n h'
    | .error e => .error e

/-- Model of `Exhume for &'input [T]` (src/heap.rs): null-check the
stored pointer part, reserve `len` elements at the stored offset, exhume
each element, rebind the in-place slice to the reserved address. -/
def exhumeSlice (size align : Nat) (elem : Nat → Heap → Except Unit Heap)
    (offset len : Nat) (h : Heap) : Except Unit (Nat × Heap) :=
  if offset = 0 then .error ()
  else
    match h.reserve size align offset len with
    | (.ok ptr, h') =>
      match exhumeElems elem size ptr len h' with
      | .ok h'' => .ok (ptr, h'')
      | .error e => .error e
    | (.error e, _) => .error e

/-! ## UTF-8 and `&str` (src/lib.rs) -/

/-- A UTF-8 continuation byte, `0x80 ..= 0xBF`. -/
def utf8Cont (b : Nat) : Bool := 0x80 ≤ b && b ≤ 0xBF

/-- Validity of a byte sequence as UTF-8, the acceptance condition of
`str::from_utf8` (well-formed UTF-8 per the Unicode standard: shortest
forms only, no surrogates, code points at most `0x10FFFF`). -/
def utf8Valid : List Nat → Bool
  | [] => true
  | b :: rest =>
    if b ≤ 0x7F then utf8Valid rest
    else if 0xC2 ≤ b && b ≤ 0xDF then
      match rest with
      | c :: rest2 => utf8Cont c && utf8Valid rest2
      | [] => false
    else if b = 0xE0 then
      match rest with
      | c :: d :: rest2 => (0xA0 ≤ c && c ≤ 0xBF) && utf8Cont d && utf8Valid rest2
      | _ => false
    else if (0xE1 ≤ b && b ≤ 0xEC) || (0xEE ≤ b && b ≤ 0xEF) then
      match rest with
      | c :: d :: rest2 => utf8Cont c && utf8Cont d && utf8Valid rest2
      | _ => false
    else if b = 0xED then
      match rest with
      | c :: d :: rest2 => (0x80 ≤ c && c ≤ 0x9F) && utf8Cont d && utf8Valid rest2
      | _ => false
    else if b = 0xF0 then
      match rest with
      | c :: d :: e :: rest2 =>
        (0x90 ≤ c && c ≤ 0xBF) && utf8Cont d && utf8Cont e && utf8Valid rest2
      | _ => false
    else if 0xF1 ≤ b && b ≤ 0xF3 then
      match rest with
      | c :: d :: e :: rest2 =>
        utf8Cont c && utf8Cont d && utf8Cont e && utf8Valid rest2
      | _ => false
    else if b = 0xF4 then
      match rest with
      | c :: d :: e :: rest2 =>
        (0x80 ≤ c && c ≤ 0x8F) && utf8Cont d && utf8Cont e && utf8Valid rest2
      | _ => false
    else false

/-- The bytes of the reserved region `[ptr, ptr + len)` inside the buffer
whose first byte sits at address `h.start`. -/
def regionBytes (buf : List Nat) (h : Heap) (ptr len : Nat) : List Nat :=
  (buf.drop (ptr - h.start)).take len

/-- `<&[u8]>::exhume`: element type `u8` has size 1, alignment 1 and the
no-op validator. -/
def exhumeSliceU8 (offset len : Nat) (h : Heap) : Except Unit (Nat × Heap) :=
  exhumeSlice 1 1 (fun _ h => .ok h) offset len h

/-- Model of `Exhume for &'input str` (src/lib.rs): run `<&[u8]>::exhume`
on the in-place (offset, length) value, then require the rebound bytes to
be valid UTF-8. -/
def exhume_str (buf : List Nat) (offset len : Nat) (h : Heap) :
    Except Unit (Nat × Heap) :=
  match exhumeSliceU8 offset len h with
  | .ok (ptr, h') =>
    if utf8Valid (regionBytes buf h ptr len) then .ok (ptr, h') else .error ()
  | .error e => .error e

/-! ## decode (src/heap.rs) -/

/-- Model of `decode::<T>(input)` (src/heap.rs): build the heap over the
buffer, reserve one `T` at offset 0, run `T::exhume` on it, return the
root address.  `root` is the root type's validator restricted to its heap
effect. -/
def decode (size align : Nat) (root : Nat → Heap → Except Unit Heap)
    (start len : Nat) : Except Unit Nat :=
  let h := Heap.new start len
  match h.reserve size align 0 1 with
  | (.ok ptr, h') =>
    match root ptr h' with
    | .ok _ => .ok ptr
    | .error e => .error e
  | (.error e, _) => .error e

/-- `Exhume for ()` (from `noop_impl`, src/lib.rs) as a heap-effect
validator: always succeeds, heap untouched. -/
def exhume_unit (_ptr : Nat) (h : Heap) : Except Unit Heap := .ok h

/-- `decode::<()>`: `size_of::<()>() = 0`, `align_of::<()>() = 1`. -/
def decodeUnit (start len : Nat) : Except Unit Nat :=
  decode 0 1 exhume_unit start len

/-! ## Reservation traces (for the cross-call invariants of §8)

During one `decode`, validators issue a sequence of `reserve` requests
against the single heap; validation aborts at the first failure.  We model
such a sequence as a list of requests folded over the heap, recording the
byte region of every successful reservation and every heap state visited. -/

/-- One `reserve::<T>(offset, len)` request: `size` and `align` are
`T`'s size and alignment. -/
structure Req where
  size : Nat
  align : Nat
  offset : Nat
  len : Nat

/-- Run a sequence of reservations, first failure aborts (as `?` does in
the validators).  Returns the `(address, byte_length)` region of each
successful reservation, and every heap state visited (initial first). -/
def runReserve : Heap → List Req → List (Nat × Nat) × List Heap
  | h, [] => ([], [h])
  | h, r :: rs =>
    match h.reserve r.size r.align r.offset r.len with
    | (.ok ptr, h') =>
      ((ptr, r.len * r.size) :: (runReserve h' rs).1,
       h :: (runReserve h' rs).2)
    | (.error _, _) => ([], [h])

/-! ## Buffer-level models (for the frame property)

`this` is a byte offset into an explicit buffer; multi-byte in-place
values are read little-endian as on the x86-64 targets the crate
addresses.  The Rust leaf impls perform no stores, so their translations
return the buffer they were given; the slice impl ends with
`*this = slice::from_raw_parts(ptr, len)`, a store of the rebound
(pointer, length) pair. -/

/-- Little-endian read of `n` bytes of `buf` starting at index `i`
(out-of-range bytes read as 0). -/
def readLE (buf : List Nat) : Nat → Nat → Nat
  | _, 0 => 0
  | i, n + 1 => buf.getD i 0 + 256 * readLE buf (i + 1) n

/-- Little-endian store of the low `n` bytes of `v` into `buf` at
index `i`. -/
def writeLE : List Nat → Nat → Nat → Nat → List Nat
  | buf, _, 0, _ => buf
  | buf, i, n + 1, v => writeLE (buf.set i (v % 256)) (i + 1) n (v / 256)

/-- `Exhume for bool` at buffer level: reads one byte, stores nothing. -/
def exhume_bool_at (buf : List Nat) (i : Nat) : Except Unit Unit × List Nat :=
  (exhume_bool (readLE buf i 1), buf)

/-- `Exhume for f32` at buffer level: reads four bytes, stores nothing. -/
def exhume_f32_at (buf : List Nat) (i : Nat) : Except Unit Unit × List Nat :=
  (exhume_f32 (readLE buf i 4), buf)

/-- `Exhume for f64` at buffer level: reads eight bytes, stores nothing. -/
def exhume_f64_at (buf : List Nat) (i : Nat) : Except Unit Unit × List Nat :=
  (exhume_f64 (readLE buf i 8), buf)

/-- `Exhume for char` at buffer level: reads four bytes, stores nothing. -/
def exhume_char_at (buf : List Nat) (i : Nat) : Except Unit Unit × List Nat :=
  (exhume_char (readLE buf i 4), buf)

/-- `noop_impl` (integers, `()`, `RangeFull`) at buffer level: reads and
stores nothing. -/
def exhume_noop_at (buf : List Nat) (_i : Nat) : Except Unit Unit × List Nat :=
  (.ok (), buf)

/-- `c_enum_impl` for `Ordering` at buffer level. -/
def exhume_Ordering_at (buf : List Nat) (i : Nat) : Except Unit Unit × List Nat :=
  (exhume_Ordering (readLE buf i 1), buf)

/-- `c_enum_impl` for `FpCategory` at buffer level. -/
def exhume_FpCategory_at (buf : List Nat) (i : Nat) : Except Unit Unit × List Nat :=
  (exhume_FpCategory (readLE buf i 1), buf)

/-- `c_enum_impl` for `Shutdown` at buffer level. -/
def exhume_Shutdown_at (buf : List Nat) (i : Nat) : Except Unit Unit × List Nat :=
  (exhume_Shutdown (readLE buf i 1), buf)

/-- `Heap::reserve` at buffer level: it manipulates the three heap
pointers only and never dereferences into the buffer. -/
def reserve_at (buf : List Nat) (h : Heap) (size align offset len : Nat) :
    (Except Unit Nat × Heap) × List Nat :=
  (h.reserve size align offset len, buf)

/-- `Exhume for &[u8]` at buffer level: the in-place value is the
(pointer, length) pair stored little-endian at bytes `i..i+8` and
`i+8..i+16`; on success the rebound pair is stored back
(`*this = slice::from_raw_parts(ptr, len)`). -/
def exhume_slice_u8_at (buf : List Nat) (i : Nat) (h : Heap) :
    Except Unit (List Nat × Heap) :=
  match exhumeSliceU8 (readLE buf i 8) (readLE buf (i + 8) 8) h with
  | .ok (ptr, h') =>
    .ok (writeLE (writeLE buf i 8 ptr) (i + 8) 8 (readLE buf (i + 8) 8), h')
  | .error e => .error e

/-! ## Helper lemmas about `Heap.reserve` -/

/-- Characterization of `Heap.reserve` as a chain of guards (the guard on
overflow of `address + byte_length` is subsumed below by an explicit
`USIZE` test). -/
theorem reserve_eq (h : Heap) (size align offset len : Nat) :
    h.reserve size align offset len =
      if USIZE ≤ h.start + offset then (.error (), h)
      else if h.start + offset < h.remaining then (.error (), h)
      else if (h.start + offset) % align ≠ 0 then (.error (), h)
      else if USIZE ≤ len * size then (.error (), h)
      else if USIZE ≤ h.start + offset + len * size then (.error (), h)
      else if h.end_ < h.start + offset + len * size then (.error (), h)
      else (.ok (h.start + offset),
            { h with remaining := h.start + offset + len * size }) := by
  unfold Heap.reserve checked_add checked_mul
  repeat' split
  all_goals simp_all
  all_goals omega

/-- Facts available after a successful `Heap.reserve`: the region starts
at or after the old high-water mark, the new high-water mark is the
region's end, `start` and `end` are untouched, and the region is
in-bounds. -/
theorem reserve_ok_facts (h : Heap) (size align offset len ptr : Nat)
    (h' : Heap)
    (hres : h.reserve size align offset len = (.ok ptr, h')) :
    h.remaining ≤ ptr ∧ h'.remaining = ptr + len * size ∧
    h'.start = h.start ∧ h'.end_ = h.end_ ∧
    ptr + len * size ≤ h.end_ ∧ h.start ≤ ptr := by
  rw [reserve_eq] at hres
  split_ifs at hres <;> simp_all
  obtain ⟨h1, h2⟩ := hres
  subst h1
  subst h2
  dsimp only
  omega

/-- A successful `Heap.reserve` preserves well-formedness. -/
theorem reserve_ok_WF (h : Heap) (size align offset len ptr : Nat)
    (h' : Heap) (hwf : h.WF)
    (hres : h.reserve size align offset len = (.ok ptr, h')) :
    h'.WF := by
  obtain ⟨f1, f2, f3, f4, f5, f6⟩ :=
    reserve_ok_facts h size align offset len ptr h' hres
  obtain ⟨w1, w2, w3⟩ := hwf
  exact ⟨by omega, by omega, by omega⟩

/-- Inductive invariant of a reservation trace: every recorded region
starts at or after the initial high-water mark, consecutive regions are
ordered end-before-start, every visited heap state is well-formed, the
high-water mark never recedes along the trace, and the trace starts at
the initial heap. -/
theorem runReserve_spec (rs : List Req) :
    ∀ h : Heap, h.WF →
    (∀ g ∈ (runReserve h rs).1, h.remaining ≤ g.1) ∧
    List.Chain' (fun a b : Nat × Nat => a.1 + a.2 ≤ b.1) (runReserve h rs).1 ∧
    (∀ h' ∈ (runReserve h rs).2, h'.WF) ∧
    List.Chain' (fun a b : Heap => a.remaining ≤ b.remaining)
      (runReserve h rs).2 ∧
    (runReserve h rs).2.head? = some h := by
  induction rs with
  | nil =>
    intro h hwf
    simp [runReserve, hwf]
  | cons r rs ih =>
    intro h hwf
    rcases hres : h.reserve r.size r.align r.offset r.len with ⟨res, h2⟩
    cases res with
    | error e =>
      simp [runReserve, hres, hwf]
    | ok ptr =>
      have hfacts := reserve_ok_facts h r.size r.align r.offset r.len ptr h2 hres
      have hwf2 : h2.WF := reserve_ok_WF h r.size r.align r.offset r.len ptr h2 hwf hres
      obtain ⟨ih1, ih2, ih3, ih4, ih5⟩ := ih h2 hwf2
      simp only [runReserve, hres]
      refine ⟨?_, ?_, ?_, ?_, rfl⟩
      · intro g hg
        rcases List.mem_cons.mp hg with hg | hg
        · subst hg; exact hfacts.1
        · have := ih1 g hg
          omega
      · refine List.chain'_cons'.mpr ⟨?_, ih2⟩
        intro g hg
        have hmem : g ∈ (runReserve h2 rs).1 := List.mem_of_mem_head? hg
        have := ih1 g hmem
        simp only
        omega
      · intro h' hh'
        rcases List.mem_cons.mp hh' with hh' | hh'
        · subst hh'; exact hwf
        · exact ih3 h' hh'
      · refine List.chain'_cons'.mpr ⟨?_, ih4⟩
        intro g hg
        rw [ih5] at hg
        cases hg
        omega

/-! ## The claims -/

/-- Claim C1: the spec says validation of an f32 fails iff the pattern is
a signaling NaN (exponent all ones, mantissa nonzero, quiet bit clear),
with `0x7FC00000` passing and `0x7F800001` failing.  The code does the
opposite on NaN payloads: its mask `0x1FF << 22` requires the quiet bit
to be SET, so the signaling NaN `0x7F800001` is accepted and the quiet
NaN `0x7FC00001` is rejected, contradicting the code's own comment
"Signaling NaNs are errors".  The f64 impl has the same inversion and
moreover rejects the canonical quiet NaN `0x7FF8000000000000`.  This
theorem records the code's behaviour at those inputs. -/
theorem exhume_f32_snan_bug :
    isSignalingNaN32 0x7F800001 ∧ exhume_f32 0x7F800001 = .ok () ∧
    isQuietNaN32 0x7FC00001 ∧ exhume_f32 0x7FC00001 = .error () ∧
    isQuietNaN32 0x7FC00000 ∧ exhume_f32 0x7FC00000 = .ok () ∧
    exhume_f64 0x7FF0000000000001 = .ok () ∧
    exhume_f64 0x7FF8000000000000 = .error () :=
  ⟨by decide, rfl, by decide, rfl, by decide, rfl, rfl, rfl⟩

/-- Claim C2: `Heap::reserve(offset, count)` for an element type of the
given size and alignment errors iff `start + offset` overflows, or the
address is behind the high-water mark, or the address is misaligned, or
`count * size` overflows, or the region end exceeds `end`; otherwise it
returns the region starting at `start + offset` and advances the
high-water mark to the region's end. -/
theorem heap_reserve_spec (h : Heap) (size align offset len : Nat)
    (hend : h.end_ < USIZE) :
    ((h.reserve size align offset len).1 = .error () ↔
      USIZE ≤ h.start + offset ∨
      h.start + offset < h.remaining ∨
      (h.start + offset) % align ≠ 0 ∨
      USIZE ≤ len * size ∨
      h.end_ < h.start + offset + len * size) ∧
    (∀ (ptr : Nat) (h' : Heap),
      h.reserve size align offset len = (.ok ptr, h') →
      ptr = h.start + offset ∧
      h' = { h with remaining := h.start + offset + len * size }) := by
  constructor
  · rw [reserve_eq]
    split_ifs <;> simp_all
    omega
  · intro ptr h' hres
    rw [reserve_eq] at hres
    split_ifs at hres <;> simp_all
    obtain ⟨h1, h2⟩ := hres
    rw [← h1]
    exact h2.symm

/-- Witness for `heap_reserve_spec` at a concrete heap and request. -/
theorem heap_reserve_spec_witness :
    (Heap.mk 0 0 16).end_ < USIZE ∧
    ((((Heap.mk 0 0 16).reserve 4 4 0 2).1 = .error () ↔
      USIZE ≤ (Heap.mk 0 0 16).start + 0 ∨
      (Heap.mk 0 0 16).start + 0 < (Heap.mk 0 0 16).remaining ∨
      ((Heap.mk 0 0 16).start + 0) % 4 ≠ 0 ∨
      USIZE ≤ 2 * 4 ∨
      (Heap.mk 0 0 16).end_ < (Heap.mk 0 0 16).start + 0 + 2 * 4) ∧
    (∀ (ptr : Nat) (h' : Heap),
      (Heap.mk 0 0 16).reserve 4 4 0 2 = (.ok ptr, h') →
      ptr = (Heap.mk 0 0 16).start + 0 ∧
      h' = { Heap.mk 0 0 16 with
              remaining := (Heap.mk 0 0 16).start + 0 + 2 * 4 })) :=
  ⟨by decide, heap_reserve_spec (Heap.mk 0 0 16) 4 4 0 2 (by decide)⟩

/-- Claim C3: across the successful reservations of one trace, the
reserved byte ranges are pairwise disjoint and their start addresses are
non-decreasing; every heap state along the trace is well-formed
(`start ≤ high_water ≤ end`) and the high-water mark only advances. -/
theorem runReserve_invariants (h : Heap) (rs : List Req) (hwf : h.WF) :
    List.Pairwise (fun a b : Nat × Nat =>
      ∀ x : Nat, a.1 ≤ x → x < a.1 + a.2 → ¬ (b.1 ≤ x ∧ x < b.1 + b.2))
      (runReserve h rs).1 ∧
    List.Pairwise (fun a b : Nat × Nat => a.1 ≤ b.1) (runReserve h rs).1 ∧
    (∀ h' ∈ (runReserve h rs).2, h'.WF) ∧
    List.Chain' (fun a b : Heap => a.remaining ≤ b.remaining)
      (runReserve h rs).2 := by
  obtain ⟨h1, h2, h3, h4, h5⟩ := runReserve_spec rs h hwf
  haveI : IsTrans (Nat × Nat) (fun a b => a.1 + a.2 ≤ b.1) :=
    ⟨fun a b c hab hbc => by omega⟩
  have hpair : List.Pairwise (fun a b : Nat × Nat => a.1 + a.2 ≤ b.1)
      (runReserve h rs).1 := List.chain'_iff_pairwise.mp h2
  refine ⟨hpair.imp ?_, hpair.imp ?_, h3, h4⟩
  · intro a b hab
    intro x hx1 hx2 hx3
    omega
  · intro a b hab
    omega

/-- Witness for `runReserve_invariants` on a two-request trace. -/
theorem runReserve_invariants_witness :
    (Heap.new 0 8).WF ∧
    (List.Pairwise (fun a b : Nat × Nat =>
      ∀ x : Nat, a.1 ≤ x → x < a.1 + a.2 → ¬ (b.1 ≤ x ∧ x < b.1 + b.2))
      (runReserve (Heap.new 0 8)
        [Req.mk 1 1 0 4, Req.mk 1 1 4 4]).1 ∧
    List.Pairwise (fun a b : Nat × Nat => a.1 ≤ b.1)
      (runReserve (Heap.new 0 8) [Req.mk 1 1 0 4, Req.mk 1 1 4 4]).1 ∧
    (∀ h' ∈ (runReserve (Heap.new 0 8) [Req.mk 1 1 0 4, Req.mk 1 1 4 4]).2,
      h'.WF) ∧
    List.Chain' (fun a b : Heap => a.remaining ≤ b.remaining)
      (runReserve (Heap.new 0 8) [Req.mk 1 1 0 4, Req.mk 1 1 4 4]).2) :=
  ⟨by decide,
   runReserve_invariants (Heap.new 0 8) [Req.mk 1 1 0 4, Req.mk 1 1 4 4]
     (by decide)⟩

/-- Claim C4: a reference or slice value carrying the null sentinel
offset fails before reserving or validating any referenced region: the
result is an error for every element validator and every heap state. -/
theorem exhume_null_indirection (size align : Nat)
    (elem : Nat → Heap → Except Unit Heap) (h : Heap) (len : Nat) :
    exhumeRef size align elem 0 h = .error () ∧
    exhumeSlice size align elem 0 len h = .error () := by
  constructor
  · simp [exhumeRef]
  · simp [exhumeSlice]

/-- Claim C5: boolean validation succeeds iff the byte is exactly 0 or 1;
0x02 fails while 0x00 and 0x01 succeed. -/
theorem exhume_bool_spec :
    (∀ b : Nat, exhume_bool b = .ok () ↔ b = 0 ∨ b = 1) ∧
    exhume_bool 2 = .error () ∧ exhume_bool 0 = .ok () ∧
    exhume_bool 1 = .ok () := by
  refine ⟨fun b => ?_, rfl, rfl, rfl⟩
  unfold exhume_bool
  split_ifs with hb <;> simp_all
  tauto

/-- Claim C6: each closed byte-represented enumeration accepts exactly
the declared discriminant values (each variant cast to `u8`): 255/0/1 for
the 3-valued ordering, 0..4 for the float-category enumeration, 0..2 for
the shutdown enumeration; any other byte fails. -/
theorem c_enum_spec (b : Nat) :
    (exhume_Ordering b = .ok () ↔ b ∈ orderingDiscs) ∧
    (exhume_FpCategory b = .ok () ↔ b ∈ fpCategoryDiscs) ∧
    (exhume_Shutdown b = .ok () ↔ b ∈ shutdownDiscs) := by
  refine ⟨?_, ?_, ?_⟩
  · simp only [exhume_Ordering, orderingDiscs, u8_cast, List.mem_cons,
      List.not_mem_nil, or_false]
    split_ifs <;> simp_all
  · simp only [exhume_FpCategory, fpCategoryDiscs, u8_cast, List.mem_cons,
      List.not_mem_nil, or_false]
    split_ifs <;> simp_all
  · simp only [exhume_Shutdown, shutdownDiscs, u8_cast, List.mem_cons,
      List.not_mem_nil, or_false]
    split_ifs <;> simp_all

/-- Claim C7: validating a UTF-8 text view succeeds exactly when the
underlying byte-slice validation succeeds AND the bounds-validated bytes
are valid UTF-8; in particular an in-bounds byte `0xFF` passes the slice
check but fails the text check. -/
theorem exhume_str_spec :
    (∀ (buf : List Nat) (offset len : Nat) (h : Heap) (ptr : Nat) (h' : Heap),
      exhume_str buf offset len h = .ok (ptr, h') ↔
        (exhumeSliceU8 offset len h = .ok (ptr, h') ∧
         utf8Valid (regionBytes buf h ptr len) = true)) ∧
    exhumeSliceU8 1 1 (Heap.mk 0 0 10) = .ok (1, Heap.mk 0 2 10) ∧
    exhume_str [0, 0xFF, 0, 0, 0, 0, 0, 0, 0, 0] 1 1 (Heap.mk 0 0 10) =
      .error () := by
  refine ⟨?_, rfl, rfl⟩
  intro buf offset len h ptr h'
  unfold exhume_str
  cases hres : exhumeSliceU8 offset len h with
  | error e => simp
  | ok v =>
    obtain ⟨p, hh⟩ := v
    dsimp only
    split_ifs with hu
    · constructor
      · intro hok
        cases hok
        exact ⟨rfl, hu⟩
      · rintro ⟨heq, _⟩
        exact heq
    · constructor
      · intro hok
        cases hok
      · rintro ⟨heq, hutf⟩
        cases heq
        exact absurd hutf hu

/-- Claim C8: decoding a zero-size root type (the unit type) against an
empty buffer succeeds, for every buffer base address. -/
theorem decode_unit_empty (start : Nat) (hstart : start < USIZE) :
    decodeUnit start 0 = .ok start := by
  unfold decodeUnit decode exhume_unit
  dsimp only
  rw [reserve_eq]
  simp only [Heap.new]
  split_ifs <;> simp_all <;> omega

/-- Witness for `decode_unit_empty` at buffer address 0. -/
theorem decode_unit_empty_witness : 0 < USIZE ∧ decodeUnit 0 0 = .ok 0 :=
  ⟨by decide, decode_unit_empty 0 (by decide)⟩

/-- Claim C9: `Heap::reserve` is atomic on failure: whenever it returns
an error, the heap state is exactly the state before the call. -/
theorem reserve_error_frame (h : Heap) (size align offset len : Nat)
    (herr : (h.reserve size align offset len).1 = .error ()) :
    (h.reserve size align offset len).2 = h := by
  rw [reserve_eq] at herr ⊢
  split_ifs at herr ⊢ <;> simp_all

/-- Witness for `reserve_error_frame`: a backward reservation fails and
leaves the heap untouched. -/
theorem reserve_error_frame_witness :
    ((Heap.mk 0 5 10).reserve 1 1 0 1).1 = .error () ∧
    ((Heap.mk 0 5 10).reserve 1 1 0 1).2 = Heap.mk 0 5 10 :=
  ⟨rfl, reserve_error_frame (Heap.mk 0 5 10) 1 1 0 1 rfl⟩

/-- Claim C10: the leaf validators (booleans, floats, characters,
integers, closed enumerations) and `Heap::reserve` never write to the
buffer — the buffer after the call equals the buffer before, success or
failure — while the slice validator does mutate it by rebinding the
in-place value (shown at a concrete input where the stored offset 16 is
rebound to the absolute address 32). -/
theorem leaf_frame :
    (∀ (buf : List Nat) (i : Nat),
      (exhume_bool_at buf i).2 = buf ∧
      (exhume_f32_at buf i).2 = buf ∧
      (exhume_f64_at buf i).2 = buf ∧
      (exhume_char_at buf i).2 = buf ∧
      (exhume_noop_at buf i).2 = buf ∧
      (exhume_Ordering_at buf i).2 = buf ∧
      (exhume_FpCategory_at buf i).2 = buf ∧
      (exhume_Shutdown_at buf i).2 = buf) ∧
    (∀ (buf : List Nat) (h : Heap) (size align offset len : Nat),
      (reserve_at buf h size align offset len).2 = buf) ∧
    exhume_slice_u8_at
        [16, 0, 0, 0, 0, 0, 0, 0, 0, 0, 0, 0, 0, 0, 0, 0, 0, 0, 0, 0, 0, 0, 0, 0]
        0 (Heap.new 16 24) =
      .ok ([32, 0, 0, 0, 0, 0, 0, 0, 0, 0, 0, 0, 0, 0, 0, 0, 0, 0, 0, 0, 0, 0, 0, 0],
           Heap.mk 16 32 40) ∧
    ([32, 0, 0, 0, 0, 0, 0, 0, 0, 0, 0, 0, 0, 0, 0, 0, 0, 0, 0, 0, 0, 0, 0, 0] :
        List Nat) ≠
      [16, 0, 0, 0, 0, 0, 0, 0, 0, 0, 0, 0, 0, 0, 0, 0, 0, 0, 0, 0, 0, 0, 0, 0] :=
  ⟨fun buf i => ⟨rfl, rfl, rfl, rfl, rfl, rfl, rfl, rfl⟩,
   fun buf h size align offset len => rfl,
   rfl, by decide⟩

end Ignominie
